import Mathlib

/-!
# Sports Deal Tracker — verification of the filter/aggregate pipeline

A shallow embedding of the core logic of `src/app.py` (a pandas/streamlit
dashboard).  Records of the deals table are modelled as a structure with
optional fields (pandas `NaN`/`NaT`/`None` become `Option.none`), deal
values in `ℚ` (standing in for float64; none of the proved properties
depend on float rounding), and dates as `Int` day ordinals (pandas
`Timestamp` is totally ordered; `NaT` is `none`).

The pandas operations used by the app are embedded with their actual
semantics:
  * `Series.isin` — `NaN` is never a member of a list of strings;
  * `Series.fillna(0)` — absent becomes `0`;
  * `Series.sum()` — `skipna=True`, so absent contributes `0` and the
    empty/all-absent sum is `0`;
  * `Series.mean()` — `skipna=True`, so the mean is taken over the
    *present* values only, and an all-absent non-empty column yields
    `NaN` (modelled as `none`);
  * `DataFrame.groupby(key)[val].sum()` — `dropna=True`, so rows whose
    group key is absent are dropped from the aggregation, and within a
    group absent values sum as `0`;
  * `sort_values(col, ascending=False)` — modelled with `List.mergeSort`
    on the descending comparison (the claims proved here depend only on
    the output being sorted and a permutation, not on the tie-break);
  * `head(n)` — `List.take n`;
  * `pd.to_numeric(·, errors="coerce")` / `pd.to_datetime(·, errors="coerce")`
    — malformed or missing input becomes absent.
-/

namespace SportsDealTracker

/-- One row of the deals table after loading (`load_deals`): the twelve
columns of `src/app.py`, each nullable.  `deal_value_usd` is numeric,
the two dates are day ordinals, everything else is a string. -/
structure DealRecord where
  property : Option String := none
  sport : Option String := none
  rights_type : Option String := none
  deal_name : Option String := none
  sponsor_brand : Option String := none
  sponsor_category : Option String := none
  region : Option String := none
  country : Option String := none
  currency : Option String := none
  deal_value_usd : Option ℚ := none
  start_date : Option Int := none
  end_date : Option Int := none
deriving DecidableEq, Repr

/-- A raw CSV cell destined for the numeric column: either empty, a value
`pd.to_numeric` can parse, or malformed text. -/
inductive RawCell where
  | missing
  | numeric (q : ℚ)
  | malformed (s : String)
deriving DecidableEq, Repr

/-- A raw CSV cell destined for a date column: either empty, a value
`pd.to_datetime` can parse, or malformed text. -/
inductive RawDateCell where
  | missing
  | dateVal (d : Int)
  | malformed (s : String)
deriving DecidableEq, Repr

/-- `pd.to_numeric(x, errors="coerce")`: parseable input is kept, anything
else (missing or malformed) coerces to absent (`NaN`). -/
def toNumericCoerce : RawCell → Option ℚ
  | .numeric q => some q
  | _ => none

/-- `pd.to_datetime(x, errors="coerce")`: parseable input is kept, anything
else coerces to absent (`NaT`). -/
def toDatetimeCoerce : RawDateCell → Option Int
  | .dateVal d => some d
  | _ => none

/-- One raw CSV row, before type coercion (string columns are already
string-or-absent; the numeric and date columns are raw cells). -/
structure RawRecord where
  property : Option String := none
  sport : Option String := none
  rights_type : Option String := none
  deal_name : Option String := none
  sponsor_brand : Option String := none
  sponsor_category : Option String := none
  region : Option String := none
  country : Option String := none
  currency : Option String := none
  deal_value_usd : RawCell := .missing
  start_date : RawDateCell := .missing
  end_date : RawDateCell := .missing
deriving DecidableEq, Repr

/-- The per-row action of `load_deals` (`src/app.py` lines 21–23): coerce
`deal_value_usd` with `pd.to_numeric(errors="coerce")` and the two date
columns with `pd.to_datetime(errors="coerce")`; string columns pass
through. -/
def loadRecord (r : RawRecord) : DealRecord :=
  { property := r.property
    sport := r.sport
    rights_type := r.rights_type
    deal_name := r.deal_name
    sponsor_brand := r.sponsor_brand
    sponsor_category := r.sponsor_category
    region := r.region
    country := r.country
    currency := r.currency
    deal_value_usd := toNumericCoerce r.deal_value_usd
    start_date := toDatetimeCoerce r.start_date
    end_date := toDatetimeCoerce r.end_date }

/-- `load_deals`: type-coerce every row.  Total — no exception escapes. -/
def load_deals (t : List RawRecord) : List DealRecord :=
  t.map loadRecord

/-- `Series.fillna(0)` applied to one cell. -/
def fillna0 (x : Option ℚ) : ℚ := x.getD 0

/-- The user's filter selections, as built by the sidebar widgets:
three multiselects (a Python list; empty is falsy, meaning no
restriction), the value-range slider, and the active-only checkbox. -/
structure FilterCriteria where
  sport_sel : List String := []
  rights_sel : List String := []
  region_sel : List String := []
  value_range : ℚ × ℚ := (0, 1)
  active_only : Bool := false
deriving DecidableEq, Repr

/-- `f["col"].isin(sel)` for one record: an absent value never matches
(pandas `NaN.isin([...strings...])` is `False`). -/
def membPred (sel : List String) (get : DealRecord → Option String) (r : DealRecord) : Bool :=
  match get r with
  | some v => sel.contains v
  | none => false

/-- One `if sel: f = f[f["col"].isin(sel)]` step (`src/app.py`
lines 57–64): an empty selection leaves the table untouched. -/
def memberFilter (sel : List String) (get : DealRecord → Option String)
    (f : List DealRecord) : List DealRecord :=
  if sel.isEmpty then f else f.filter (membPred sel get)

/-- The value-range predicate (`src/app.py` lines 66–69):
`fillna(0) >= lo` and `fillna(0) <= hi`. -/
def valuePred (lo hi : ℚ) (r : DealRecord) : Bool :=
  decide (lo ≤ fillna0 r.deal_value_usd) && decide (fillna0 r.deal_value_usd ≤ hi)

/-- The value-range step: unconditional boolean-mask filter. -/
def valueFilter (lo hi : ℚ) (f : List DealRecord) : List DealRecord :=
  f.filter (valuePred lo hi)

/-- The active-today predicate (`src/app.py` lines 73–76):
`start_date <= today` and `end_date >= today`; a `NaT` comparison is
`False`, so an absent bound excludes the record. -/
def activePred (today : Int) (r : DealRecord) : Bool :=
  (match r.start_date with
   | some s => decide (s ≤ today)
   | none => false)
  && (match r.end_date with
      | some e => decide (today ≤ e)
      | none => false)

/-- The `if active_only:` step (`src/app.py` lines 71–76). -/
def activeFilter (activeOnly : Bool) (today : Int) (f : List DealRecord) : List DealRecord :=
  if activeOnly then f.filter (activePred today) else f

/-- `FilterEngine.apply`: the whole filter block of `src/app.py`
(lines 55–76), in source order — three membership filters, the value
range, then the active-only filter.  `today` is the `date.today()`
read at line 72. -/
def applyFilters (today : Int) (c : FilterCriteria) (df : List DealRecord) : List DealRecord :=
  activeFilter c.active_only today
    (valueFilter c.value_range.1 c.value_range.2
      (memberFilter c.region_sel (fun r => r.region)
        (memberFilter c.rights_sel (fun r => r.rights_type)
          (memberFilter c.sport_sel (fun r => r.sport) df))))

/-- `len(f)` (`src/app.py` line 84). -/
def countMetric (f : List DealRecord) : Nat := f.length

/-- `f["deal_value_usd"].sum()` (`src/app.py` line 86): pandas sums with
`skipna=True`, so each absent value contributes `0` and the empty sum
is `0`. -/
def totalMetric (f : List DealRecord) : ℚ :=
  (f.map fun r => fillna0 r.deal_value_usd).sum

/-- The present (non-absent) deal values of a table, in order. -/
def presentValues (f : List DealRecord) : List ℚ :=
  f.filterMap fun r => r.deal_value_usd

/-- `f["deal_value_usd"].mean()`: pandas `skipna=True` mean — the sum of
the present values divided by how many there are; `NaN` (here `none`)
when no value is present. -/
def seriesMean (f : List DealRecord) : Option ℚ :=
  if (presentValues f).isEmpty then none
  else some ((presentValues f).sum / ((presentValues f).length : ℚ))

/-- `avg = f["deal_value_usd"].mean() if len(f) else 0`
(`src/app.py` line 88). -/
def avgMetric (f : List DealRecord) : Option ℚ :=
  if f.length ≠ 0 then seriesMean f else some 0

/-- One bar of an aggregation chart: a group key and its summed value. -/
structure AggregateRow where
  groupKey : String
  totalValueUsd : ℚ
deriving DecidableEq, Repr

/-- The summed `deal_value_usd` of the group of `k` under `field`:
within a group pandas sums with `skipna=True`, so absent values count
as `0`. -/
def groupSum (field : DealRecord → Option String) (k : String) (f : List DealRecord) : ℚ :=
  totalMetric (f.filter fun r => field r == some k)

/-- `f.groupby(col, as_index=False)["deal_value_usd"].sum()`: one row per
distinct *present* key (pandas `groupby` defaults to `dropna=True`, so
rows whose key is absent are dropped). -/
def groupbySum (field : DealRecord → Option String) (f : List DealRecord) : List AggregateRow :=
  ((f.filterMap field).dedup).map fun k => ⟨k, groupSum field k f⟩

/-- `sort_values("deal_value_usd", ascending=False)` on aggregate rows. -/
def sortRows (rows : List AggregateRow) : List AggregateRow :=
  rows.mergeSort fun a b => decide (b.totalValueUsd ≤ a.totalValueUsd)

/-- `AggregationEngine.groupAndSum` without a limit: group, sum, sort
descending (`src/app.py` lines 98–102, 126–130). -/
def groupAndSum (field : DealRecord → Option String) (f : List DealRecord) : List AggregateRow :=
  sortRows (groupbySum field f)

/-- `groupAndSum` with a `topN` limit: `.head(n)` after sorting
(`src/app.py` lines 112–116). -/
def groupAndSumTop (field : DealRecord → Option String) (n : Nat)
    (f : List DealRecord) : List AggregateRow :=
  (groupAndSum field f).take n

/-- The `by_cat` aggregation (`src/app.py` lines 98–102). -/
def by_cat (f : List DealRecord) : List AggregateRow :=
  groupAndSum (fun r => r.sponsor_category) f

/-- The `by_brand` aggregation, limited to 10 rows
(`src/app.py` lines 112–116). -/
def by_brand (f : List DealRecord) : List AggregateRow :=
  groupAndSumTop (fun r => r.sponsor_brand) 10 f

/-- The `by_region` aggregation (`src/app.py` lines 126–130). -/
def by_region (f : List DealRecord) : List AggregateRow :=
  groupAndSum (fun r => r.region) f

/-- The record-level predicate the whole filter block amounts to: the
conjunction of the five steps (each membership step vacuous when its
selection is empty, the active step vacuous when the checkbox is off). -/
def keepRecord (today : Int) (c : FilterCriteria) (r : DealRecord) : Bool :=
  (!c.active_only || activePred today r)
  && (valuePred c.value_range.1 c.value_range.2 r
  && ((c.region_sel.isEmpty || membPred c.region_sel (fun x => x.region) r)
  && ((c.rights_sel.isEmpty || membPred c.rights_sel (fun x => x.rights_type) r)
  && (c.sport_sel.isEmpty || membPred c.sport_sel (fun x => x.sport) r))))

/-- Scenario record: Football deal worth 100. -/
def r100 : DealRecord := { sport := some "Football", deal_value_usd := some 100 }

/-- Scenario record: Tennis deal worth 200. -/
def r200 : DealRecord := { sport := some "Tennis", deal_value_usd := some 200 }

/-- Scenario record: Football deal with absent value. -/
def rAbs : DealRecord := { sport := some "Football" }

/-- The three-record table of Scenarios A and B. -/
def tbl3 : List DealRecord := [r100, r200, rAbs]

/-- Scenario A's filtered table: the two Football records. -/
def tblA : List DealRecord := [r100, rAbs]

/-- A record with an absent sponsor category but a present value. -/
def rNoCat : DealRecord := { deal_value_usd := some 100 }

/-- A one-record table whose only record has an absent group key. -/
def tblNoCat : List DealRecord := [rNoCat]

/-- Scenario B's criteria: value range (150, 300), nothing else. -/
def critB : FilterCriteria := { value_range := (150, 300) }

/-- A raw row with a malformed deal value, a malformed start date and a
missing end date. -/
def rawBad : RawRecord :=
  { deal_value_usd := .malformed "n/a", start_date := .malformed "soon"
    end_date := .missing }

/- ### Helper lemmas -/

theorem memberFilter_eq_filter (sel : List String) (get : DealRecord → Option String)
    (f : List DealRecord) :
    memberFilter sel get f = f.filter fun r => sel.isEmpty || membPred sel get r := by
  unfold memberFilter
  cases hsel : sel.isEmpty
  · simp
  · simp

theorem activeFilter_eq_filter (b : Bool) (today : Int) (f : List DealRecord) :
    activeFilter b today f = f.filter fun r => !b || activePred today r := by
  unfold activeFilter
  cases b
  · simp
  · simp

theorem applyFilters_eq_filter (today : Int) (c : FilterCriteria) (df : List DealRecord) :
    applyFilters today c df = df.filter (keepRecord today c) := by
  simp only [applyFilters, memberFilter_eq_filter, activeFilter_eq_filter, valueFilter,
    List.filter_filter]
  rfl

/- ### Claims about the FilterEngine -/

/-- C4: each membership filter (sports, rightsTypes, regions — `get` ranges
over the three column accessors) applies no restriction when its selection
is empty, and when non-empty keeps exactly the records whose field value is
a member of the selection; a record whose value on the filtered field is
absent is excluded (there is no `v` with `get r = some v`). -/
theorem C4_membership_filters (sel : List String) (get : DealRecord → Option String)
    (f : List DealRecord) :
    (sel = [] → memberFilter sel get f = f) ∧
    (sel ≠ [] → ∀ r, r ∈ memberFilter sel get f ↔
        r ∈ f ∧ ∃ v, get r = some v ∧ v ∈ sel) := by
  constructor
  · intro h
    subst h
    rfl
  · intro h r
    have hne : sel.isEmpty = false := by
      cases sel with
      | nil => exact absurd rfl h
      | cons a l => rfl
    simp only [memberFilter, hne, Bool.false_eq_true, if_false, List.mem_filter]
    constructor
    · rintro ⟨hrf, hp⟩
      refine ⟨hrf, ?_⟩
      unfold membPred at hp
      cases hv : get r with
      | none => rw [hv] at hp; simp at hp
      | some v =>
        rw [hv] at hp
        exact ⟨v, rfl, by simpa using hp⟩
    · rintro ⟨hrf, v, hv, hmem⟩
      refine ⟨hrf, ?_⟩
      unfold membPred
      rw [hv]
      simpa using hmem

/-- C4 witness: with an empty selection the Scenario A table passes through
untouched; with selection `{"Football"}` the absent-sport record's
membership is decided by the characterization. -/
theorem C4_membership_filters_witness :
    memberFilter [] (fun r => r.sport) tbl3 = tbl3 ∧
    (rAbs ∈ memberFilter ["Football"] (fun r => r.sport) tbl3 ↔
      rAbs ∈ tbl3 ∧ ∃ v, rAbs.sport = some v ∧ v ∈ ["Football"]) :=
  ⟨(C4_membership_filters [] (fun r => r.sport) tbl3).1 rfl,
   (C4_membership_filters ["Football"] (fun r => r.sport) tbl3).2 (by decide) rAbs⟩

/-- C5: the value-range filter keeps exactly the records whose
`deal_value_usd`, with absent treated as 0 (`fillna(0)`), lies in the
closed interval; and in Scenario B — range (150, 300) on the three-record
table, no other restriction — only the Tennis/200 record survives. -/
theorem C5_value_range_filter (lo hi : ℚ) (f : List DealRecord) :
    (∀ r, r ∈ valueFilter lo hi f ↔
        r ∈ f ∧ (lo ≤ fillna0 r.deal_value_usd ∧ fillna0 r.deal_value_usd ≤ hi)) ∧
    applyFilters 0 critB tbl3 = [r200] := by
  constructor
  · intro r
    simp [valueFilter, valuePred, List.mem_filter]
  · decide

/-- C6: with `activeOnly` on, exactly the records with both dates present
and `startDate ≤ today ≤ endDate` survive (an absent bound never
satisfies a `NaT` comparison); with it off, the step keeps the table
unchanged. -/
theorem C6_active_only_filter (today : Int) (f : List DealRecord) :
    (∀ r, r ∈ activeFilter true today f ↔
        r ∈ f ∧ ∃ s e, r.start_date = some s ∧ r.end_date = some e ∧
          s ≤ today ∧ today ≤ e) ∧
    activeFilter false today f = f := by
  constructor
  · intro r
    simp only [activeFilter, if_true, List.mem_filter]
    constructor
    · rintro ⟨hrf, hp⟩
      refine ⟨hrf, ?_⟩
      unfold activePred at hp
      rw [Bool.and_eq_true] at hp
      obtain ⟨h1, h2⟩ := hp
      cases hs : r.start_date with
      | none => rw [hs] at h1; simp at h1
      | some s =>
        cases he : r.end_date with
        | none => rw [he] at h2; simp at h2
        | some e =>
          rw [hs] at h1
          rw [he] at h2
          exact ⟨s, e, rfl, rfl, of_decide_eq_true h1, of_decide_eq_true h2⟩
    · rintro ⟨hrf, s, e, hs, he, h1, h2⟩
      refine ⟨hrf, ?_⟩
      unfold activePred
      rw [hs, he]
      simp [h1, h2]
  · rfl

/-- C7: `FilterEngine.apply` is idempotent — filtering an already filtered
table with the same criteria changes nothing. -/
theorem C7_filter_idempotent (today : Int) (c : FilterCriteria) (df : List DealRecord) :
    applyFilters today c (applyFilters today c df) = applyFilters today c df := by
  simp only [applyFilters_eq_filter, List.filter_filter]
  exact List.filter_congr fun r _ => Bool.and_self (keepRecord today c r)

/-- C10: the output of `FilterEngine.apply` is a subsequence of its input —
every surviving record occurs in the input, unmodified and unduplicated,
in the input's relative order. -/
theorem C10_filter_sublist (today : Int) (c : FilterCriteria) (df : List DealRecord) :
    (applyFilters today c df).Sublist df := by
  rw [applyFilters_eq_filter]
  exact List.filter_sublist df

/- ### Helper lemmas about the AggregationEngine -/

theorem sortRows_perm (rows : List AggregateRow) : List.Perm (sortRows rows) rows :=
  List.mergeSort_perm rows _

theorem sortRows_pairwise (rows : List AggregateRow) :
    (sortRows rows).Pairwise fun a b => b.totalValueUsd ≤ a.totalValueUsd := by
  have h : (sortRows rows).Pairwise fun a b =>
      decide (b.totalValueUsd ≤ a.totalValueUsd) = true := by
    unfold sortRows
    apply List.sorted_mergeSort
    · intro a b c hab hbc
      simp only [decide_eq_true_eq] at *
      exact le_trans hbc hab
    · intro a b
      rcases le_total a.totalValueUsd b.totalValueUsd with h | h <;> simp [h]
  exact h.imp fun hab => of_decide_eq_true hab

theorem groupbySum_keys (field : DealRecord → Option String) (f : List DealRecord) :
    (groupbySum field f).map AggregateRow.groupKey = (f.filterMap field).dedup := by
  unfold groupbySum
  rw [List.map_map]
  exact List.map_id _

theorem sum_map_add_distrib (K : List String) (g h : String → ℚ) :
    (K.map fun k => g k + h k).sum = (K.map g).sum + (K.map h).sum := by
  induction K with
  | nil => simp
  | cons a K ih =>
    simp only [List.map_cons, List.sum_cons, ih]
    ring

theorem sum_map_single (v : ℚ) :
    ∀ (K : List String), K.Nodup → ∀ k0 ∈ K,
      (K.map fun k => if k0 = k then v else 0).sum = v := by
  intro K
  induction K with
  | nil => intro _ k0 hk; cases hk
  | cons a K ih =>
    intro hK k0 hk
    rw [List.map_cons, List.sum_cons]
    rcases List.mem_cons.mp hk with rfl | hmem
    · have hz : (K.map fun k => if k0 = k then v else 0).sum = 0 := by
        apply List.sum_eq_zero
        intro x hx
        rcases List.mem_map.mp hx with ⟨k, hkK, rfl⟩
        have hne : k0 ≠ k := fun h => (List.nodup_cons.mp hK).1 (h ▸ hkK)
        simp [hne]
      simp [hz]
    · have hne : k0 ≠ a := fun h => (List.nodup_cons.mp hK).1 (h ▸ hmem)
      rw [if_neg hne, zero_add]
      exact ih (List.nodup_cons.mp hK).2 k0 hmem

theorem groupSum_cons (field : DealRecord → Option String) (k : String)
    (r : DealRecord) (f : List DealRecord) :
    groupSum field k (r :: f)
      = (if field r = some k then fillna0 r.deal_value_usd else 0) + groupSum field k f := by
  unfold groupSum totalMetric
  by_cases h : field r = some k
  · simp [List.filter_cons, h]
  · simp [List.filter_cons, h]

theorem sum_groupSum (field : DealRecord → Option String) :
    ∀ (f : List DealRecord) (K : List String), K.Nodup →
      (∀ r ∈ f, ∀ k, field r = some k → k ∈ K) →
      (K.map fun k => groupSum field k f).sum
        = totalMetric (f.filter fun r => (field r).isSome) := by
  intro f
  induction f with
  | nil =>
    intro K _ _
    have hz : ∀ q ∈ K.map fun k => groupSum field k ([] : List DealRecord), q = 0 := by
      intro q hq
      rcases List.mem_map.mp hq with ⟨k, _, rfl⟩
      simp [groupSum, totalMetric]
    rw [List.sum_eq_zero hz]
    simp [totalMetric]
  | cons r f ih =>
    intro K hK hcov
    have hmap : (K.map fun k => groupSum field k (r :: f))
        = K.map fun k =>
            (if field r = some k then fillna0 r.deal_value_usd else 0) + groupSum field k f :=
      List.map_congr_left fun k _ => groupSum_cons field k r f
    rw [hmap, sum_map_add_distrib,
      ih K hK fun r' hr' => hcov r' (List.mem_cons_of_mem r hr')]
    cases hfr : field r with
    | none =>
      have hz : (K.map fun k =>
          if (none : Option String) = some k then fillna0 r.deal_value_usd else 0).sum
            = 0 := by
        apply List.sum_eq_zero
        intro x hx
        rcases List.mem_map.mp hx with ⟨k, _, rfl⟩
        simp
      rw [hz, zero_add]
      congr 1
      simp [List.filter_cons, hfr]
    | some k0 =>
      have hk0 : k0 ∈ K := hcov r (List.mem_cons_self r f) k0 hfr
      have hrw : (K.map fun k =>
            if (some k0 : Option String) = some k then fillna0 r.deal_value_usd else 0)
          = K.map fun k => if k0 = k then fillna0 r.deal_value_usd else 0 :=
        List.map_congr_left fun k _ => by simp
      rw [hrw, sum_map_single (fillna0 r.deal_value_usd) K hK k0 hk0]
      simp [List.filter_cons, hfr, totalMetric]

/- ### Claims about the AggregationEngine -/

/-- C2 counterexample: a non-empty table whose only record has an absent
group key aggregates to *no rows at all* — the record is silently dropped
rather than kept as its own absent-keyed group. -/
theorem C2_counterexample :
    groupAndSum (fun r => r.sponsor_category) tblNoCat = [] ∧ tblNoCat ≠ [] := by
  constructor
  · have h0 : groupbySum (fun r => r.sponsor_category) tblNoCat = [] := rfl
    unfold groupAndSum
    rw [h0]
    simp [sortRows]
  · decide

/-- C2 (amended): `groupAndSum` partitions only the records whose group key
is present — the output's keys are exactly the present key values of the
table (one row per distinct present key, no duplicates), and records with
an absent group key are dropped from the aggregation (pandas
`groupby(dropna=True)`). -/
theorem C2_absent_key_dropped (field : DealRecord → Option String) (f : List DealRecord) :
    (∀ k : String,
      k ∈ (groupAndSum field f).map AggregateRow.groupKey ↔ some k ∈ f.map field) ∧
    ((groupAndSum field f).map AggregateRow.groupKey).Nodup := by
  have hperm : List.Perm ((groupAndSum field f).map AggregateRow.groupKey)
      ((groupbySum field f).map AggregateRow.groupKey) :=
    (sortRows_perm (groupbySum field f)).map AggregateRow.groupKey
  constructor
  · intro k
    rw [hperm.mem_iff, groupbySum_keys, List.mem_dedup, List.mem_filterMap]
    constructor
    · rintro ⟨r, hr, hfr⟩
      exact List.mem_map.mpr ⟨r, hr, hfr⟩
    · intro h
      rcases List.mem_map.mp h with ⟨r, hr, hfr⟩
      exact ⟨r, hr, hfr⟩
  · rw [hperm.nodup_iff, groupbySum_keys]
    exact List.nodup_dedup _

/-- C3 counterexample: on the one-record table whose record has an absent
group key but a present value of 100, the aggregate rows sum to 0 while
`MetricsComputer`'s total is 100 — conservation against the full table
fails. -/
theorem C3_counterexample :
    ((groupAndSum (fun r => r.sponsor_category) tblNoCat).map
        AggregateRow.totalValueUsd).sum
      ≠ totalMetric tblNoCat := by
  have h : groupAndSum (fun r => r.sponsor_category) tblNoCat = [] := by
    have h0 : groupbySum (fun r => r.sponsor_category) tblNoCat = [] := rfl
    unfold groupAndSum
    rw [h0]
    simp [sortRows]
  rw [h]
  norm_num [totalMetric, tblNoCat, rNoCat, fillna0]

/-- C3 (amended): the sum of `totalValueUsd` over all aggregation rows (no
topN limit) equals `MetricsComputer`'s `totalValueUsd` of the sub-table of
records whose group key is present (absent values treated as 0 in both);
conservation against the full table holds exactly when no record with an
absent group key carries value. -/
theorem C3_conservation_present_keys (field : DealRecord → Option String)
    (f : List DealRecord) :
    ((groupAndSum field f).map AggregateRow.totalValueUsd).sum
      = totalMetric (f.filter fun r => (field r).isSome) := by
  unfold groupAndSum
  rw [List.Perm.sum_eq ((sortRows_perm (groupbySum field f)).map AggregateRow.totalValueUsd)]
  unfold groupbySum
  rw [List.map_map]
  exact sum_groupSum field f _ (List.nodup_dedup _)
    fun r hr k hk => List.mem_dedup.mpr (List.mem_filterMap.mpr ⟨r, hr, hk⟩)

/-- C8: every aggregation result is sorted by `totalValueUsd` descending
(each adjacent pair satisfies `rows[i].totalValueUsd ≥
rows[i+1].totalValueUsd`), the topN variant is the first `n` rows after
sorting — `by_brand` being its instantiation at `sponsorBrand` with
limit 10 — and the truncated result is still sorted. -/
theorem C8_aggregation_sorted_topN (field : DealRecord → Option String)
    (f : List DealRecord) (n : Nat) :
    List.Chain' (fun a b => b.totalValueUsd ≤ a.totalValueUsd) (groupAndSum field f) ∧
    groupAndSumTop field n f = (groupAndSum field f).take n ∧
    by_brand f = (groupAndSum (fun r => r.sponsor_brand) f).take 10 ∧
    List.Chain' (fun a b => b.totalValueUsd ≤ a.totalValueUsd) (groupAndSumTop field n f) := by
  have hp : (groupAndSum field f).Pairwise fun a b => b.totalValueUsd ≤ a.totalValueUsd :=
    sortRows_pairwise (groupbySum field f)
  exact ⟨hp.chain', rfl, rfl, (hp.chain').take n⟩

/- ### Claims about the MetricsComputer -/

/-- C1 counterexample: on Scenario A's filtered table (values 100 and
absent), `totalValueUsd / count = 100 / 2 = 50`, but the code's
`Series.mean()` skips the absent value and returns 100 — `avgValueUsd` is
not `totalValueUsd / count`. -/
theorem C1_counterexample :
    0 < countMetric tblA ∧
    avgMetric tblA = some 100 ∧
    totalMetric tblA / (countMetric tblA : ℚ) = 50 ∧
    avgMetric tblA ≠ some (totalMetric tblA / (countMetric tblA : ℚ)) := by
  have havg : avgMetric tblA = some 100 := by
    norm_num [avgMetric, seriesMean, presentValues, tblA, r100, rAbs,
      List.filterMap_cons, List.filterMap_nil]
  have htc : totalMetric tblA / (countMetric tblA : ℚ) = 50 := by
    norm_num [totalMetric, countMetric, tblA, r100, rAbs, fillna0]
  refine ⟨by decide, havg, htc, ?_⟩
  rw [havg, htc]
  simp only [ne_eq, Option.some.injEq]
  norm_num

/-- C1 (amended): `avgValueUsd` is the pandas skipna mean — the sum of the
*present* `dealValueUsd` values divided by how many there are — whenever
at least one value is present; it is exactly 0 for an empty table; and it
is NaN (absent) for a non-empty table whose values are all absent.  In
particular Scenario A's filtered table yields 100, not
`totalValueUsd / count = 50`. -/
theorem C1_avg_skipna_mean (f : List DealRecord) :
    (countMetric f = 0 → avgMetric f = some 0) ∧
    (presentValues f ≠ [] →
      avgMetric f = some ((presentValues f).sum / ((presentValues f).length : ℚ))) ∧
    (countMetric f ≠ 0 → presentValues f = [] → avgMetric f = none) := by
  refine ⟨?_, ?_, ?_⟩
  · intro h
    unfold countMetric at h
    simp [avgMetric, h]
  · intro h
    have hf : f.length ≠ 0 := by
      intro h0
      rw [List.length_eq_zero] at h0
      subst h0
      exact h rfl
    have hie : (presentValues f).isEmpty = false := by
      cases hpv : presentValues f with
      | nil => exact absurd hpv h
      | cons a l => rfl
    simp [avgMetric, seriesMean, hf, hie]
  · intro h hpv
    unfold countMetric at h
    simp [avgMetric, seriesMean, h, hpv]

/-- C1 witness: the empty table averages to 0; Scenario A's filtered table
averages to the mean of its present values; a non-empty all-absent table
averages to NaN. -/
theorem C1_avg_skipna_mean_witness :
    avgMetric ([] : List DealRecord) = some 0 ∧
    avgMetric tblA
      = some ((presentValues tblA).sum / ((presentValues tblA).length : ℚ)) ∧
    avgMetric [rAbs] = none :=
  ⟨(C1_avg_skipna_mean []).1 rfl,
   (C1_avg_skipna_mean tblA).2.1 (by decide),
   (C1_avg_skipna_mean [rAbs]).2.2 (by decide) (by decide)⟩

/- ### Claims about loading -/

/-- C9: loading never fails (`load_deals` is total and length-preserving),
and a raw value that cannot be coerced to its declared type — a
non-numeric deal value, an unparseable date — is coerced to absent, never
to zero. -/
theorem C9_malformed_coerces_absent (t : List RawRecord) (r : RawRecord) :
    (load_deals t).length = t.length ∧
    ((∀ q : ℚ, r.deal_value_usd ≠ RawCell.numeric q) →
        (loadRecord r).deal_value_usd = none ∧ (loadRecord r).deal_value_usd ≠ some 0) ∧
    ((∀ d : Int, r.start_date ≠ RawDateCell.dateVal d) →
        (loadRecord r).start_date = none) ∧
    ((∀ d : Int, r.end_date ≠ RawDateCell.dateVal d) →
        (loadRecord r).end_date = none) := by
  refine ⟨by simp [load_deals], ?_, ?_, ?_⟩
  · intro h
    have hn : toNumericCoerce r.deal_value_usd = none := by
      cases hc : r.deal_value_usd with
      | numeric q => exact absurd hc (h q)
      | missing => rfl
      | malformed s => rfl
    constructor
    · simpa [loadRecord] using hn
    · simp [loadRecord, hn]
  · intro h
    have hn : toDatetimeCoerce r.start_date = none := by
      cases hc : r.start_date with
      | dateVal d => exact absurd hc (h d)
      | missing => rfl
      | malformed s => rfl
    simpa [loadRecord] using hn
  · intro h
    have hn : toDatetimeCoerce r.end_date = none := by
      cases hc : r.end_date with
      | dateVal d => exact absurd hc (h d)
      | missing => rfl
      | malformed s => rfl
    simpa [loadRecord] using hn

/-- C9 witness: a raw row with a malformed deal value, a malformed start
date and a missing end date loads with all three fields absent, the value
in particular not zero. -/
theorem C9_malformed_coerces_absent_witness :
    (loadRecord rawBad).deal_value_usd = none ∧
    (loadRecord rawBad).deal_value_usd ≠ some 0 ∧
    (loadRecord rawBad).start_date = none ∧
    (loadRecord rawBad).end_date = none := by
  have h := C9_malformed_coerces_absent [] rawBad
  have h1 := h.2.1 fun q => by simp [rawBad]
  exact ⟨h1.1, h1.2, h.2.2.1 fun d => by simp [rawBad],
    h.2.2.2 fun d => by simp [rawBad]⟩

end SportsDealTracker
